import Mathlib

/-!
Verification development for the pysisso SISSO-output parsing core
(`pysisso/outputs.py`).  The Python code is shallowly embedded: pure
string manipulation is translated to executable functions over
`List Char` / `String`, Python exceptions become an explicit error type
(`PyErr`) threaded through `Except`, numeric values are modelled by `ℚ`
(the parsing layer never relies on floating-point rounding), and the
class constructors `SISSOVersion.from_string`, `SISSODescriptor`,
`SISSOModel.from_string`, `SISSOIteration.from_string`,
`SISSOParams.from_string` and `SISSOOut.from_file` become functions
returning `Except PyErr _`.
-/

set_option maxRecDepth 100000

namespace PySisso

/-- Python exception kinds raised by the parsing code under study. -/
inductive PyErr where
  | valueError (msg : String)
  | indexError
  | typeError
  | stopIteration
deriving DecidableEq, Repr

/-- Python `str.split()` whitespace test (the characters actually relevant
to the SISSO report format). -/
def isPySpace (c : Char) : Bool :=
  c = ' ' || c = '\t' || c = '\n' || c = '\r' || c = '\x0c' || c = '\x0b'

/-- Auxiliary accumulator-based splitter for Python `str.split()`. -/
def pySplitWsAux : List Char → List Char → List (List Char)
  | [], acc => if acc = [] then [] else [acc.reverse]
  | c :: rest, acc =>
    if isPySpace c then
      if acc = [] then pySplitWsAux rest []
      else acc.reverse :: pySplitWsAux rest []
    else pySplitWsAux rest (c :: acc)

/-- Python `str.split()` with no argument: split on whitespace runs,
dropping empty fields. -/
def pySplitWs (l : List Char) : List String :=
  (pySplitWsAux l []).map String.mk

/-- Python `s.split()[-1]`: last whitespace-delimited token of a string;
`IndexError` when the string has no tokens. -/
def pyLastTokenE (s : String) : Except PyErr String :=
  match (pySplitWs s.data).getLast? with
  | none => .error .indexError
  | some t => .ok t

/-- Python `str.strip()` restricted to whitespace. -/
def pyStrip (l : List Char) : List Char :=
  ((l.dropWhile isPySpace).reverse.dropWhile isPySpace).reverse

/-- Python `l[i]` on a list: the element, or `IndexError`. -/
def listGetE {α : Type} (l : List α) (i : ℕ) : Except PyErr α :=
  match l.get? i with
  | none => .error .indexError
  | some x => .ok x

/-- First occurrence of `pat` in a character list: returns the part
strictly before the occurrence and the part strictly after it. -/
def firstOcc (pat : List Char) : List Char → Option (List Char × List Char)
  | [] => if pat = [] then some ([], []) else none
  | c :: rest =>
    if pat.isPrefixOf (c :: rest) then some ([], (c :: rest).drop pat.length)
    else (firstOcc pat rest).map (fun p => (c :: p.1, p.2))

/-- Whether `pat` occurs as a contiguous substring of `hay`. -/
def containsSub (hay pat : List Char) : Bool :=
  (firstOcc pat hay).isSome

/-- Python `sub in s` on strings. -/
def strContains (s sub : String) : Bool :=
  containsSub s.data sub.data

/-- Fuel-driven worker for `findallLine`. -/
def findallLineAux (label : List Char) : ℕ → List Char → List (List Char)
  | 0, _ => []
  | fuel + 1, l =>
    match firstOcc label l with
    | none => []
    | some (_, after) =>
      match firstOcc ['\n'] after with
      | none => []
      | some (mid, rest) =>
        (label ++ mid ++ ['\n']) :: findallLineAux label fuel rest

/-- Model of Python `re.findall(label + ".*?\n", text)` for a literal
`label`: every non-overlapping occurrence of `label`, captured together
with the remainder of its line including the terminating newline.  An
occurrence with no following newline does not match (no `DOTALL`). -/
def findallLine (label : String) (text : String) : List String :=
  (findallLineAux label.data (text.data.length + 1) text.data).map String.mk

/-- Model of Python `re.search(label + ".*\n", text)`: the first such
match, if any. -/
def searchLine (label : String) (text : String) : Option String :=
  (findallLine label text).head?

/-- Fuel-driven worker for `pyReplaceL`; with fuel at least the length
of the input the fallback branch is unreachable. -/
def pyReplaceAux (old new : List Char) : ℕ → List Char → List Char
  | _, [] => []
  | 0, s => s
  | fuel + 1, c :: rest =>
    if old ≠ [] ∧ old.isPrefixOf (c :: rest) then
      new ++ pyReplaceAux old new fuel ((c :: rest).drop old.length)
    else
      c :: pyReplaceAux old new fuel rest

/-- Python `s.replace(old, new)` for a non-empty `old`: leftmost,
non-overlapping replacement.  (Empty `old` is never used by the code
under study; it is mapped to the identity.) -/
def pyReplaceL (old new : List Char) (s : List Char) : List Char :=
  pyReplaceAux old new s.length s

/-- Fuel-driven worker for `pySplitSep`. -/
def pySplitSepAux (sep : List Char) : ℕ → List Char → List (List Char)
  | 0, s => [s]
  | fuel + 1, s =>
    match firstOcc sep s with
    | none => [s]
    | some (pre, post) => pre :: pySplitSepAux sep fuel post

/-- Python `s.split(sep)` for a non-empty separator: the fields between
non-overlapping leftmost occurrences of `sep` (empty fields kept). -/
def pySplitSep (s : String) (sep : String) : List String :=
  (pySplitSepAux sep.data (s.data.length + 1) s.data).map String.mk

/-- Digits-only parse of a natural number; `none` when empty or a
non-digit is present. -/
def parseDigits (l : List Char) : Option ℕ :=
  if l ≠ [] ∧ l.all Char.isDigit then
    some (l.foldl (fun a c => a * 10 + (c.toNat - 48)) 0)
  else none

/-- Python `int(s)`: strip whitespace, optional sign, then decimal
digits; anything else raises `ValueError`. -/
def pyInt (s : String) : Except PyErr Int :=
  let t := pyStrip s.data
  match t with
  | '-' :: ds =>
    match parseDigits ds with
    | some n => .ok (-(n : ℤ))
    | none => .error (.valueError "invalid literal for int")
  | '+' :: ds =>
    match parseDigits ds with
    | some n => .ok (n : ℤ)
    | none => .error (.valueError "invalid literal for int")
  | ds =>
    match parseDigits ds with
    | some n => .ok (n : ℤ)
    | none => .error (.valueError "invalid literal for int")

/-- Unsigned decimal-fraction parse: `digits`, `digits.`, `digits.digits`
or `.digits`, as an exact rational. -/
def parseDecimalCore (l : List Char) : Option ℚ :=
  match firstOcc ['.'] l with
  | none =>
    match parseDigits l with
    | some n => some (mkRat (n : ℤ) 1)
    | none => none
  | some (ip, fp) =>
    if ip = [] ∧ fp = [] then none
    else if ip.all Char.isDigit ∧ fp.all Char.isDigit then
      let w : ℕ := (parseDigits ip).getD 0
      let f : ℕ := (parseDigits fp).getD 0
      some (mkRat ((w * 10 ^ fp.length + f : ℕ) : ℤ) (10 ^ fp.length))
    else none

/-- Python `float(s)` restricted to plain decimal notation (the only
form the SISSO reports under study contain); the value is kept exact as
a rational. -/
def pyFloat (s : String) : Except PyErr ℚ :=
  let t := pyStrip s.data
  match t with
  | '-' :: ds =>
    match parseDecimalCore ds with
    | some q => .ok (-q)
    | none => .error (.valueError "could not convert string to float")
  | '+' :: ds =>
    match parseDecimalCore ds with
    | some q => .ok q
    | none => .error (.valueError "could not convert string to float")
  | ds =>
    match parseDecimalCore ds with
    | some q => .ok q
    | none => .error (.valueError "could not convert string to float")

/-- Decidable equality for `Except` results. -/
instance exceptDecEq {ε α : Type} [DecidableEq ε] [DecidableEq α] :
    DecidableEq (Except ε α)
  | .ok a, .ok b =>
    if h : a = b then .isTrue (by rw [h]) else .isFalse (by simp [h])
  | .ok _, .error _ => .isFalse (by simp)
  | .error _, .ok _ => .isFalse (by simp)
  | .error e, .error f =>
    if h : e = f then .isTrue (by rw [h]) else .isFalse (by simp [h])

/-- Monadic map over `Except`, preserving Python's abort-on-first-
exception behaviour. -/
def exceptMapM {α β : Type} (f : α → Except PyErr β) : List α → Except PyErr (List β)
  | [] => .ok []
  | x :: xs => do
    let y ← f x
    let ys ← exceptMapM f xs
    .ok (y :: ys)

/-! ## Expression decoder (`SISSODescriptor._decode_function`) -/

/-- The operator/delimiter token catalogue of `_decode_function`, in
source order. -/
def OPERATORS_REPLACEMENT : List String :=
  ["exp(-", "exp(", "sin(", "cos(", "sqrt(", "cbrt(", "log(", "abs(",
   "scd(", ")^-1", ")^2", ")^3", ")^6", "+", "-", "*", "/", "(", ")"]

/-- The marker-replacement pass of `_decode_function`: each recognized
token is replaced by a run of `#` of identical length, in catalogue
order. -/
def maskOps (s : List Char) : List Char :=
  OPERATORS_REPLACEMENT.foldl
    (fun acc op => pyReplaceL op.data (List.replicate op.data.length '#') acc) s

/-- One feature-name occurrence found while walking the marker string:
the name (a slice of the marker string) with its start (inclusive) and
end (exclusive) offsets. -/
structure FeatOcc where
  featname : List Char
  istart : ℕ
  iend : ℕ
deriving DecidableEq, Repr

/-- The feature-scanning loop of `_decode_function`: walk the marker
string; a maximal run of non-`#` characters is one feature occurrence.
State: current index and, when inside a word, its start index and the
characters collected so far (reversed).  A word still open at the end of
the string is not emitted, exactly as in the source loop. -/
def scanFeatsAux : List Char → ℕ → Option (ℕ × List Char) → List FeatOcc
  | [], _, _ => []
  | c :: rest, i, some st =>
    if c = '#' then
      ⟨st.2.reverse, st.1, i⟩ :: scanFeatsAux rest (i + 1) none
    else
      scanFeatsAux rest (i + 1) (some (st.1, c :: st.2))
  | c :: rest, i, none =>
    if c ≠ '#' then scanFeatsAux rest (i + 1) (some (i, [c]))
    else scanFeatsAux rest (i + 1) none

/-- Distinct feature names in first-seen order (the `inputs` list). -/
def distinctNames : List (List Char) → List (List Char) → List (List Char)
  | [], acc => acc
  | n :: ns, acc =>
    if n ∈ acc then distinctNames ns acc else distinctNames ns (acc ++ [n])

/-- The apostrophe character, kept out of string literals. -/
def quoteChar : Char := Char.ofNat 39

/-- The column-lookup opener written by the rebuild step. -/
def dfOpen : List Char := ['d', 'f', '[', quoteChar]

/-- The column-lookup closer written by the rebuild step. -/
def dfClose : List Char := [quoteChar, ']']

/-- Column-lookup wrapper for one feature name. -/
def dfWrap (n : List Char) : List Char := dfOpen ++ n ++ dfClose

/-- The rebuild step of `_decode_function`: splice the original string,
replacing each recorded feature occurrence by a column lookup and
keeping the surrounding operator text verbatim. -/
def rebuildAux (orig : List Char) : ℕ → List FeatOcc → List Char
  | prev, [] => orig.drop prev
  | prev, f :: fs =>
    (orig.drop prev).take (f.istart - prev) ++ dfWrap f.featname ++
      rebuildAux orig f.iend fs

/-- The operator-spelling translations applied to the rebuilt string, in
source order. -/
def NUMPY_REPLACEMENTS : List (String × String) :=
  [("sin(", "np.sin("), ("cos(", "np.cos("), ("exp(", "np.exp("),
   ("log(", "np.log("), ("sqrt(", "np.sqrt("), ("cbrt(", "np.cbrt("),
   ("abs(", "np.abs("), (")^2", ")**2"), (")^3", ")**3"),
   (")^6", ")**6"), (")^-1", ")**-1")]

/-- Fold of the operator-spelling translations. -/
def numpyReplaces (s : List Char) : List Char :=
  NUMPY_REPLACEMENTS.foldl (fun acc p => pyReplaceL p.1.data p.2.data acc) s

/-- Result record of `_decode_function`. -/
structure DecodeResult where
  evalstring : List Char
  featuresInString : List FeatOcc
  inputs : List (List Char)
deriving DecidableEq, Repr

/-- `SISSODescriptor._decode_function`: marker replacement, boundary
check (Python indexes `replaced_string[0]`, so an empty string raises
`IndexError` before the `ValueError` branch is reached), feature scan,
rebuild, operator-spelling translation. -/
def decodeFunction (string : String) : Except PyErr DecodeResult :=
  let replaced := maskOps string.data
  match replaced.head? with
  | none => .error .indexError
  | some c =>
    if c ≠ '#' ∨ replaced.getLast? ≠ some '#' then
      .error (.valueError "should start and end with the marker")
    else
      let feats := scanFeatsAux replaced 0 none
      .ok ⟨numpyReplaces (rebuildAux string.data 0 feats), feats,
           distinctNames (feats.map FeatOcc.featname) []⟩

/-- A decoded descriptor: identifier, original notation string and the
rebuilt evaluable string. -/
structure SISSODescriptor where
  descriptor_id : ℤ
  descriptor_string : String
  evalstring : List Char
deriving DecidableEq, Repr

/-- `SISSODescriptor.from_string`: split on `:`; the first field is the
integer identifier, the second with its first and last characters
stripped is the notation, which is decoded on construction. -/
def SISSODescriptor.fromString (s : String) : Except PyErr SISSODescriptor :=
  match pySplitSep s ":" with
  | [] => .error .indexError
  | [_] => .error .indexError
  | a :: b :: _ => do
    let id ← pyInt a
    let dstr := String.mk (b.data.drop 1).dropLast
    let r ← decodeFunction dstr
    .ok ⟨id, dstr, r.evalstring⟩

/-! ## Version header, Cauchy kernel -/

/-- `SISSOVersion`: header string plus the version components.  The
source passes the raw string components (`version_sp[1:]`) through
unconverted, so the field is a list of strings here, not integers. -/
structure SISSOVersion where
  header_string : String
  version : List String
deriving DecidableEq, Repr

/-- `SISSOVersion.from_string`: split the header line on commas, take
the first segment, split it on periods, keep every component after the
first — without integer conversion, exactly as the source does. -/
def SISSOVersion.fromString (s : String) : SISSOVersion :=
  ⟨String.mk (pyStrip s.data), ((pySplitSep ((pySplitSep s ",").headD "") ".").drop 1)⟩

/-- Version components as the spec and the source's own type annotation
(`version: list[int]`) describe them: each period-separated component
after the first, converted to an integer.  Modelled from the spec:
"ordered list of version-component integers". -/
def specVersionInts (s : String) : Except PyErr (List ℤ) :=
  exceptMapM pyInt (((pySplitSep ((pySplitSep s ",").headD "") ".").drop 1))

/-- The custom kernel `scd` (standard Cauchy density), as defined in the
source: `1.0 / (pi * (1.0 + x * x))`, read over the real numbers. -/
noncomputable def scd (x : ℝ) : ℝ := 1.0 / (Real.pi * (1.0 + x * x))

/-! ## Evaluation of rebuilt expression strings

The source evaluates the rebuilt `evalstring` with Python `eval` against
a dataframe `df`.  Following the spec (§9), that dynamic evaluation is
modelled by parsing the rebuilt string into an explicit expression tree
over column lookups and interpreting it; a table row is a valuation of
column names in `ℚ`. -/

/-- Expression tree for rebuilt evaluable strings (arithmetic
fragment). -/
inductive PyExpr where
  | col (name : String)
  | add (a b : PyExpr)
  | sub (a b : PyExpr)
  | mul (a b : PyExpr)
  | div (a b : PyExpr)
deriving DecidableEq, Repr

/-- Interpret an expression tree against one table row. -/
def PyExpr.evalRow (df : String → ℚ) : PyExpr → ℚ
  | col n => df n
  | add a b => a.evalRow df + b.evalRow df
  | sub a b => a.evalRow df - b.evalRow df
  | mul a b => a.evalRow df * b.evalRow df
  | div a b => a.evalRow df / b.evalRow df

/-- A parsed SISSO model. -/
structure SISSOModel where
  dimension : ℤ
  descriptors : List SISSODescriptor
  coefficients : List (List ℚ)
  intercept : List ℚ
  rmse : List ℚ
  maxae : List ℚ
deriving DecidableEq, Repr

/-- Mutable state of the line loop in `SISSOModel.from_string`:
`descriptors` is `none` until the `@@@descriptor` marker line is seen. -/
structure ModelState where
  descriptors : Option (List SISSODescriptor)
  coefficients : List (List ℚ)
  intercept : List ℚ
  rmse : List ℚ
  maxae : List ℚ
deriving DecidableEq, Repr

/-- The `coefficients_` / `Intercept_` / `RMSE,MaxAE_` branches of the
line loop. -/
def modelDataLine (st : ModelState) (line : String) : Except PyErr ModelState :=
  if strContains line "coefficients_" then
    match pySplitSep line ":" with
    | _ :: p1 :: _ => do
      let nums ← exceptMapM pyFloat (pySplitWs p1.data)
      .ok { st with coefficients := st.coefficients ++ [nums] }
    | _ => .error .indexError
  else if strContains line "Intercept_" then
    match pySplitSep line ":" with
    | _ :: p1 :: _ => do
      let v ← pyFloat p1
      .ok { st with intercept := st.intercept ++ [v] }
    | _ => .error .indexError
  else if strContains line "RMSE,MaxAE_" then
    match pySplitWs line.data with
    | _ :: a :: b :: _ => do
      let r ← pyFloat a
      let m ← pyFloat b
      .ok { st with rmse := st.rmse ++ [r], maxae := st.maxae ++ [m] }
    | _ => .error .indexError
  else .ok st

/-- One step of the line loop of `SISSOModel.from_string`. -/
def modelLineStep (dim : ℤ) (st : ModelState) (line : String) :
    Except PyErr ModelState :=
  if strContains line "@@@descriptor" then
    .ok { st with descriptors := some [] }
  else
    match st.descriptors with
    | some ds =>
      if (ds.length : ℤ) < dim then do
        let d ← SISSODescriptor.fromString line
        .ok { st with descriptors := some (ds ++ [d]) }
      else modelDataLine st line
    | none => modelDataLine st line

/-- `SISSOModel.from_string`: the dimension is the last token of the
first line; then every line (including the first) runs through the line
loop; a missing descriptor block is a `ValueError`. -/
def SISSOModel.fromString (string : String) : Except PyErr SISSOModel := do
  let lines := pySplitSep string "\n"
  let dimTok ← pyLastTokenE (lines.headD "")
  let dim ← pyInt dimTok
  let st ← lines.foldlM (modelLineStep dim) ⟨none, [], [], [], []⟩
  match st.descriptors with
  | none => .error (.valueError "Descriptor not found")
  | some ds => .ok ⟨dim, ds, st.coefficients, st.intercept, st.rmse, st.maxae⟩

/-! ## Iteration parsing (`SISSOIteration.from_string`) -/

/-- A parsed SISSO iteration. -/
structure SISSOIteration where
  iteration_number : ℤ
  sisso_model : SISSOModel
  feature_spaces : List (String × ℤ)
  SIS_subspace_size : ℤ
  cpu_time : ℚ
deriving DecidableEq, Repr

/-- One entry of the feature-space mapping: rung label is the
second-to-last token with its final character stripped, count is the
last token. -/
def featureSpaceEntry (s : String) : Except PyErr (String × ℤ) :=
  match (pySplitWs s.data).reverse with
  | last :: pre :: _ => do
    let n ← pyInt last
    .ok (String.mk pre.data.dropLast, n)
  | _ => .error .indexError

/-- `SISSOIteration.from_string`: build the model from the whole block,
then extract the feature-space lines, the first `Size of the
SIS-selected subspace` match (index 0 — `IndexError` when there is
none) and the first `Time (second) used for this DI:` match. -/
def SISSOIteration.fromString (string : String) : Except PyErr SISSOIteration := do
  let m ← SISSOModel.fromString string
  let mfs := findallLine "Total number of features in the space phi" string
  let fs ← exceptMapM featureSpaceEntry mfs
  let subs := findallLine "Size of the SIS-selected subspace" string
  let s0 ← listGetE subs 0
  let st ← pyLastTokenE s0
  let size ← pyInt st
  let cts := findallLine "Time (second) used for this DI:" string
  let c0 ← listGetE cts 0
  let ct ← pyLastTokenE c0
  let cpu ← pyFloat ct
  .ok ⟨m.dimension, m, fs, size, cpu⟩

/-! ## Run-parameters parsing (`SISSOParams.from_string`) -/

/-- Typed values a parameter field can hold. -/
inductive ParamValue where
  | int (n : ℤ)
  | float (q : ℚ)
  | str (s : String)
  | bool (b : Bool)
  | ints (l : List ℤ)
  | strs (l : List String)
  | matrix (m : List (List ℚ))
deriving DecidableEq, Repr

/-- Coercion tags of the `PARAMS` table. -/
inductive ParamType where
  | tint
  | tfloat
  | tstr
  | tbool
  | tints
  | tstrs
  | tmatrix
deriving DecidableEq, Repr

/-- Modelled from the spec: `pysisso.utils.str_to_bool` is not under
`src/`; the spec describes it only as "boolean-from-string". -/
def strToBool (s : String) : Except PyErr ParamValue :=
  if s = "True" ∨ s = ".True." ∨ s = "T" then .ok (.bool true)
  else if s = "False" ∨ s = ".False." ∨ s = "F" then .ok (.bool false)
  else .error (.valueError "cannot convert to bool")

/-- Modelled from the spec: `pysisso.utils.list_of_ints` is not under
`src/`; the spec describes it as "whitespace-delimited integer list". -/
def listOfInts (s : String) : Except PyErr ParamValue := do
  let l ← exceptMapM pyInt (pySplitWs s.data)
  .ok (.ints l)

/-- Modelled from the spec: `pysisso.utils.list_of_strs` is not under
`src/`; the spec describes it as "whitespace-delimited string list". -/
def listOfStrs (s : String) : Except PyErr ParamValue :=
  .ok (.strs (pySplitWs s.data))

/-- Modelled from the spec: `pysisso.utils.matrix_of_floats` is not
under `src/`; the spec describes the units block as parsed "into a
numeric matrix" (rows = lines, columns = whitespace-separated floats). -/
def matrixOfFloats (s : String) : Except PyErr ParamValue := do
  let rows ← exceptMapM (fun (line : String) => exceptMapM pyFloat (pySplitWs line.data))
    ((pySplitSep s "\n").filter (fun line => pySplitWs line.data ≠ []))
  .ok (.matrix rows)

/-- Apply the coercion of a `PARAMS` entry to the extracted token. -/
def convertParam (t : ParamType) (tok : String) : Except PyErr ParamValue :=
  match t with
  | .tint => do let n ← pyInt tok; .ok (.int n)
  | .tfloat => do let q ← pyFloat tok; .ok (.float q)
  | .tstr => .ok (.str tok)
  | .tbool => strToBool tok
  | .tints => listOfInts tok
  | .tstrs => listOfStrs tok
  | .tmatrix => matrixOfFloats tok

/-- The fixed extraction table `SISSOParams.PARAMS` (field name, label
pattern as a literal, coercion). -/
def PARAMS : List (String × String × ParamType) :=
  [("property_type", "Property type:", .tint),
   ("total_number_properties", "Number of tasks:", .tint),
   ("descriptor_dimension", "Descriptor dimension:", .tint),
   ("number_of_samples", "Number of samples for each task:", .tints),
   ("n_scalar_features", "Number of scalar features:", .tint),
   ("n_rungs", "Tier of the feature space:", .tint),
   ("max_feature_complexity",
    "Maximal feature complexity (number of operators in a feature):", .tint),
   ("dimension_types",
    "Units of the input primary features (each represented by a vector):",
    .tmatrix),
   ("lower_bound_maxabs_value",
    "The feature will be discarded if the minimum of the maximal abs. value in it <",
    .tfloat),
   ("upper_bound_maxabs_value",
    "The faature will be discarded if the maximum of the maximal abs. value in it >",
    .tfloat),
   ("SIS_subspaces_sizes", "Size of the SIS-selected (single) subspace :", .tints),
   ("operators", "Operators for feature construction:", .tstrs),
   ("sparsification_method", "Method for sparse regression:", .tstr),
   ("n_topmodels", "Number of the top-ranked models to output:", .tint),
   ("fit_intercept", "Fitting intercept:", .tbool),
   ("metric", "Metric for model selection:", .tstr)]

/-- Parse `tok (' ' tok)* '\n'` greedily for `tok = \d+\.\d*`,
requiring at least two tokens in total. -/
def matchUnitsToks : List Char → ℕ → ℕ → Option (List Char × List Char)
  | _, _, 0 => none
  | l, seen, fuel + 1 =>
    let ds := l.takeWhile Char.isDigit
    let r1 := l.dropWhile Char.isDigit
    if ds = [] then none
    else
      match r1 with
      | '.' :: r2 =>
        let fs := r2.takeWhile Char.isDigit
        let r3 := r2.dropWhile Char.isDigit
        match r3 with
        | ' ' :: r4 => do
          let (toks, rest') ← matchUnitsToks r4 (seen + 1) fuel
          some (ds ++ '.' :: fs ++ ' ' :: toks, rest')
        | '\n' :: r4 =>
          if seen + 1 ≥ 2 then some (ds ++ '.' :: fs ++ ['\n'], r4) else none
        | _ => none
      | _ => none

/-- Match one units line: two spaces, then at least two
whitespace-separated `\d+\.\d*` tokens followed by a newline; returns
the matched characters and the rest. -/
def matchUnitsLine (l : List Char) : Option (List Char × List Char) :=
  match l with
  | ' ' :: ' ' :: rest => do
    let (toks, rest') ← matchUnitsToks rest 0 (rest.length + 1)
    some (' ' :: ' ' :: toks, rest')
  | _ => none

/-- A maximal run of consecutive units lines starting exactly here. -/
def matchUnitsBlock : List Char → ℕ → Option (List Char × List Char)
  | _, 0 => none
  | l, fuel + 1 =>
    match matchUnitsLine l with
    | none => none
    | some (m, rest) =>
      match matchUnitsBlock rest fuel with
      | some (m2, rest2) => some (m ++ m2, rest2)
      | none => some (m, rest)

/-- Model of `re.search` for the units-matrix pattern
`(  (?:\d+\.\d* )+(?:\d+\.\d*)\n)+`: the first position at which one or
more consecutive units lines match, maximally extended. -/
def searchUnits : List Char → Option (List Char)
  | [] => none
  | c :: rest =>
    match matchUnitsBlock (c :: rest) (rest.length + 2) with
    | some (m, _) => some m
    | none => searchUnits rest

/-- One field of the extraction loop of `SISSOParams.from_string` (all
fields except `dimension_types`).  The source tests
`len(matches) != 1` and then reads `matches[0]` — so exactly one match
leaves the field unset, zero matches raise `IndexError`, and two or
more matches assign from the first. -/
def paramsField (label : String) (t : ParamType) (text : String) :
    Except PyErr (Option ParamValue) :=
  let ms := findallLine label text
  if ms.length ≠ 1 then do
    let m0 ← listGetE ms 0
    let tok ← pyLastTokenE m0
    let v ← convertParam t tok
    .ok (some v)
  else .ok none

/-- The `dimension_types` branch: `re.search` for the units block;
assign only when a match exists. -/
def paramsDimensionTypes (text : String) : Except PyErr (Option ParamValue) :=
  match searchUnits text.data with
  | none => .ok none
  | some m => do
    let v ← matrixOfFloats (String.mk m)
    .ok (some v)

/-- `SISSOParams.from_string`: run the extraction table in order,
collecting the keyword arguments actually assigned. -/
def SISSOParams.fromString (text : String) :
    Except PyErr (List (String × Option ParamValue)) :=
  exceptMapM (fun (e : String × String × ParamType) =>
      if e.1 = "dimension_types" then do
        let v ← paramsDimensionTypes text
        .ok (e.1, v)
      else do
        let v ← paramsField e.2.1 e.2.2 text
        .ok (e.1, v))
    PARAMS

/-! ## Report parsing (`SISSOOut.from_file`) -/

/-- A parsed report. -/
structure SISSOOut where
  params : List (String × Option ParamValue)
  iterations : List SISSOIteration
  version : SISSOVersion
  cpu_time : ℚ
deriving DecidableEq, Repr

/-- Fuel-driven worker for `findallIterations`. -/
def findallIterAux : ℕ → List Char → List (List Char)
  | 0, _ => []
  | fuel + 1, l =>
    match firstOcc "Dimension:".data l with
    | none => []
    | some (_, afterDim) =>
      match firstOcc "Time (second) used for this DI:".data afterDim with
      | none => []
      | some (mid, afterTime) =>
        match firstOcc ['\n'] afterTime with
        | none => []
        | some (mid2, rest) =>
          ("Dimension:".data ++ mid ++ "Time (second) used for this DI:".data ++
            mid2 ++ ['\n']) :: findallIterAux fuel rest

/-- Model of
`re.findall(r"Dimension:.*?(?=Time \(second\) used for this DI:).*?\n", string, re.DOTALL)`:
each non-overlapping stretch from a `Dimension:` header through the end
of the next `Time (second) used for this DI:` line. -/
def findallIterations (text : String) : List String :=
  (findallIterAux (text.data.length + 1) text.data).map String.mk

/-- The lines of a file as Python file iteration yields them (each
including its newline; a trailing chunk without a newline still counts
as a line). -/
def fileLinesAux : List Char → List Char → List String
  | [], acc => if acc = [] then [] else [String.mk acc.reverse]
  | c :: rest, acc =>
    if c = '\n' then String.mk (c :: acc).reverse :: fileLinesAux rest []
    else fileLinesAux rest (c :: acc)

/-- Lines of the report text, for the three-line header read. -/
def fileLines (s : String) : List String := fileLinesAux s.data []

/-- The completion sentinel phrase searched by `SISSOOut.from_file`. -/
def SENTINEL : String := "Have a nice day !"

/-- Everything `SISSOOut.from_file` does after the completion-sentinel
check: parameters, iteration blocks, the version from the literal third
line (`StopIteration` when the file has fewer than three lines), and
the total CPU time (`match[0]` on a failed `re.search` returns `None`,
so a missing `Total time (second):` line raises `TypeError`). -/
def SISSOOut.parseBody (string : String) : Except PyErr SISSOOut := do
  let params ← SISSOParams.fromString string
  let iterations ← exceptMapM SISSOIteration.fromString (findallIterations string)
  let hl ←
    match (fileLines string).get? 2 with
    | none => .error PyErr.stopIteration
    | some l => .ok l
  let version := SISSOVersion.fromString hl
  let tot ←
    match searchLine "Total time (second):" string with
    | none => .error PyErr.typeError
    | some m => .ok m
  let tok ← pyLastTokenE tot
  let cpu ← pyFloat tok
  .ok ⟨params, iterations, version, cpu⟩

/-- `SISSOOut.from_file` on the report text: raise `ValueError` when the
completion sentinel is absent and `allow_unfinished` is not set;
otherwise parse the body. -/
def SISSOOut.fromText (string : String) (allow_unfinished : Bool) :
    Except PyErr SISSOOut :=
  if ¬ strContains string SENTINEL ∧ allow_unfinished = false then
    .error (.valueError "SISSO.out should end with the completion sentinel")
  else SISSOOut.parseBody string

/-- The `model` property: the last iteration's model; `IndexError` on an
empty iteration list. -/
def SISSOOut.modelE (out : SISSOOut) : Except PyErr SISSOModel :=
  match out.iterations.getLast? with
  | none => .error .indexError
  | some it => .ok it.sisso_model

/-! ## Prediction (`SISSOModel.predict`)

The numeric core of `predict` is modelled with descriptors abstracted
to their per-row evaluation functions (the code calls
`descr.evaluate(df)`, which yields one value per row).  The two nested
loops, the initialisation of every row to the per-task intercepts, the
`coeffs[idescr]` lookup and the column bound check of
`out[:, itask] += dval` are translated directly. -/

/-- Whether an `Except` is a success. -/
def exceptIsOk {α : Type} : Except PyErr α → Bool
  | .ok _ => true
  | .error _ => false

/-- Total list access with an explicit default (structural equations,
used both by the embedding and by the matrix statements). -/
def lget {α : Type} (d : α) : List α → ℕ → α
  | [], _ => d
  | x :: _, 0 => x
  | _ :: xs, n + 1 => lget d xs n

/-- `out[:, itask] += coeff * descr.evaluate(df)`: add the scaled
descriptor value of each row to column `itask` of that row. -/
def dfColumnAdd (itask : ℕ) (c : ℚ) (descr : (String → ℚ) → ℚ)
    (df : List (String → ℚ)) (out : List (List ℚ)) : List (List ℚ) :=
  List.zipWith (fun row env => row.set itask (lget 0 row itask + c * descr env)) out df

/-- The inner loop of `predict` over `enumerate(self.coefficients)` for
one descriptor: look up `coeffs[idescr]` (an `IndexError` when the row
is too short), then add into column `itask` (an `IndexError` when
`itask` is not a valid column). -/
def predictInner (df : List (String → ℚ)) (nTasks : ℕ) (idescr : ℕ)
    (descr : (String → ℚ) → ℚ) :
    List (List ℚ) → List (ℕ × List ℚ) → Except PyErr (List (List ℚ))
  | out, [] => .ok out
  | out, (itask, coeffs) :: rest =>
    match coeffs.get? idescr with
    | none => .error .indexError
    | some c =>
      if itask < nTasks then
        predictInner df nTasks idescr descr (dfColumnAdd itask c descr df out) rest
      else .error .indexError

/-- The outer loop of `predict` over `enumerate(self.descriptors)`. -/
def predictOuter (df : List (String → ℚ)) (nTasks : ℕ)
    (coefficients : List (List ℚ)) :
    List (List ℚ) → List (ℕ × ((String → ℚ) → ℚ)) → Except PyErr (List (List ℚ))
  | out, [] => .ok out
  | out, (idescr, descr) :: rest => do
    let out2 ← predictInner df nTasks idescr descr out coefficients.enum
    predictOuter df nTasks coefficients out2 rest

/-- `SISSOModel.predict`: initialise a `[n_rows][n_tasks]` matrix with
the per-task intercepts, then accumulate
`coefficient[task][descriptor] * descriptor value` for every descriptor
and task. -/
def predictCore (intercept : List ℚ) (coefficients : List (List ℚ))
    (descriptors : List ((String → ℚ) → ℚ)) (df : List (String → ℚ)) :
    Except PyErr (List (List ℚ)) :=
  predictOuter df intercept.length coefficients (df.map (fun _ => intercept))
    descriptors.enum

/-- Matrix entry accessor with default `0`. -/
def mget (M : List (List ℚ)) (i t : ℕ) : ℚ := lget 0 (lget [] M i) t

/-! ## Notation expression trees (for the decoder refinement)

A well-formed SISSO notation over the binary arithmetic vocabulary is
the rendering of an expression tree; the decoder is proved to rebuild
exactly the column-lookup rendering of the same tree. -/

/-- The single-character operator/delimiter tokens. -/
def isOpChar (c : Char) : Bool :=
  c = '+' || c = '-' || c = '*' || c = '/' || c = '(' || c = ')'

/-- Binary arithmetic operators of the notation grammar. -/
inductive BinOp where
  | add
  | sub
  | mul
  | div
deriving DecidableEq, Repr

/-- Source spelling of a binary operator. -/
def BinOp.char : BinOp → Char
  | add => '+'
  | sub => '-'
  | mul => '*'
  | div => '/'

/-- Expression trees over feature names and binary arithmetic
operators.  `render` below produces exactly the notation strings built
from this vocabulary, every one of which is fully parenthesised. -/
inductive NotExpr where
  | feat (name : String)
  | bin (op : BinOp) (a b : NotExpr)
deriving DecidableEq, Repr

/-- The notation string of an expression tree. -/
def NotExpr.render : NotExpr → List Char
  | feat n => n.data
  | bin op a b => '(' :: (a.render ++ op.char :: (b.render ++ [')']))

/-- The expected column-lookup rendering (what the decoder's rebuild
step should produce). -/
def NotExpr.pyRender : NotExpr → List Char
  | feat n => dfWrap n.data
  | bin op a b => '(' :: (a.pyRender ++ op.char :: (b.pyRender ++ [')']))

/-- Reference arithmetic semantics of a notation: substitute the row's
value for every feature name. -/
def NotExpr.evalRow (df : String → ℚ) : NotExpr → ℚ
  | feat n => df n
  | bin .add a b => a.evalRow df + b.evalRow df
  | bin .sub a b => a.evalRow df - b.evalRow df
  | bin .mul a b => a.evalRow df * b.evalRow df
  | bin .div a b => a.evalRow df / b.evalRow df

/-- Characters allowed in feature names: anything that is not an
operator/delimiter character, not the marker, not a caret and not the
quote character used by the rebuilt column lookups. -/
def goodChar (c : Char) : Bool :=
  !(c = '#' || c = '(' || c = ')' || c = '+' || c = '-' || c = '*' ||
    c = '/' || c = '^' || c = quoteChar)

/-- A usable feature name: non-empty and made of good characters. -/
def goodName (n : String) : Bool :=
  n.data ≠ [] && n.data.all goodChar

/-- All feature names of the tree are usable. -/
def NotExpr.good : NotExpr → Bool
  | feat n => goodName n
  | bin _ a b => a.good && b.good

mutual

/-- Specification of the decoder's scan-and-rebuild composition on a
charwise-masked string, inside an open word `w`: operator characters
close the word into a column lookup; a word still open at the end of
the string stays verbatim, because the scanning loop never closes it. -/
def fuseWord : List Char → List Char → List Char
  | w, [] => w
  | w, c :: r =>
    if isOpChar c then dfWrap w ++ c :: fuseRebuild r
    else fuseWord (w ++ [c]) r
termination_by _ l => l.length

/-- Specification of scan-and-rebuild outside any open word: runs of
operator characters are copied verbatim, maximal runs of other
characters become column lookups. -/
def fuseRebuild : List Char → List Char
  | [] => []
  | c :: r => if isOpChar c then c :: fuseRebuild r else fuseWord [c] r
termination_by l => l.length

end

/-- An iteration block whose `Size of the SIS-selected subspace`
pattern matches two lines. -/
def itBlockStr : String :=
  "Dimension: 1\n@@@descriptor:\n1:[(f1+f2)]\ncoefficients_001:   2.0\nIntercept_001:   1.0\nRMSE,MaxAE_001:   0.1 0.2\nSize of the SIS-selected subspace : 10\nSize of the SIS-selected subspace : 20\nTime (second) used for this DI:  1.5\n"

/-- The model parsed from `itBlockStr`. -/
def itBlockModel : SISSOModel :=
  ⟨1, [⟨1, "(f1+f2)",
        '(' :: (dfWrap ['f', '1'] ++ '+' :: (dfWrap ['f', '2'] ++ [')']))⟩],
   [[2]], [1], [mkRat 1 10], [mkRat 1 5]⟩

/-- A report with completion sentinel and total-time line but no
parameter lines and no dimension block. -/
def minimalReportStr : String :=
  "*\n*\nVersion SISSO.3.0.2, June, 2020\nTotal time (second):   12.35\nHave a nice day !\n"

/-- A report with every parameter label occurring exactly once, a
completion sentinel and a total-time line, but no dimension block. -/
def fullReportStr : String := String.join
  ["*\n", "*\n", "Version SISSO.3.0.2, June, 2020\n",
   "Property type:   1\n",
   "Number of tasks:   1\n",
   "Descriptor dimension:   2\n",
   "Number of samples for each task:  5\n",
   "Number of scalar features:   3\n",
   "Tier of the feature space:   2\n",
   "Maximal feature complexity (number of operators in a feature):  3\n",
   "Units of the input primary features (each represented by a vector):\n",
   "The feature will be discarded if the minimum of the maximal abs. value in it <  1E-50\n",
   "The faature will be discarded if the maximum of the maximal abs. value in it >  1E+50\n",
   "Size of the SIS-selected (single) subspace :  20\n",
   "Operators for feature construction:  (+)(-)\n",
   "Method for sparse regression:  L0\n",
   "Number of the top-ranked models to output:  100\n",
   "Fitting intercept:  True\n",
   "Metric for model selection:  RMSE\n",
   "Total time (second):   12.35\n",
   "Have a nice day !\n"]

/-! ## Theorems -/

/-- C9: the custom kernel computes `scd(x) = 1 / (π · (1 + x²))` for
every real `x`; consequently `scd 0 = 1/π` and `scd x = scd (-x)`. -/
theorem scd_formula_and_symmetry :
    (∀ x : ℝ, scd x = 1 / (Real.pi * (1 + x ^ 2))) ∧
    scd 0 = 1 / Real.pi ∧ (∀ x : ℝ, scd x = scd (-x)) := by
  refine ⟨fun x => ?_, ?_, fun x => ?_⟩
  · unfold scd; norm_num [sq]
  · unfold scd; norm_num
  · unfold scd; ring_nf

/-- C1: the extraction loop of `SISSOParams.from_string` tests
`len(matches) != 1` where the spec's tolerant-default policy requires
`== 1`: a label matching exactly one line leaves the field unset, a
label matching zero lines raises `IndexError`, and a label matching two
lines assigns the typed value of the first match. -/
theorem paramsField_inverted_count :
    paramsField "Number of tasks:" .tint "Number of tasks:   3\n" = .ok none ∧
    paramsField "Number of tasks:" .tint "no parameter lines here\n"
      = .error .indexError ∧
    paramsField "Number of tasks:" .tint
        "Number of tasks:   3\nNumber of tasks:   4\n"
      = .ok (some (.int 3)) := by
  exact ⟨rfl, rfl, rfl⟩

/-- C8: the version object is built from the literal third line of the
report, but the source keeps the period-separated components after the
first as raw strings (`version_sp[1:]`, no `int` conversion), while its
own annotation and the spec require the integer list. -/
theorem version_components_left_as_strings :
    SISSOVersion.fromString "Version SISSO.3.0.2, June, 2020\n" =
      ⟨"Version SISSO.3.0.2, June, 2020", ["3", "0", "2"]⟩ ∧
    specVersionInts "Version SISSO.3.0.2, June, 2020\n" = .ok [3, 0, 2] ∧
    (SISSOOut.fromText fullReportStr false).toOption.map SISSOOut.version =
      some (SISSOVersion.fromString ((fileLines fullReportStr).getD 2 "")) := by
  exact ⟨rfl, rfl, rfl⟩

/-- C10: a report with the completion sentinel and a total-time line
but no `Dimension:` block only parses when every parameter label is
present (the inverted match-count test of C1 otherwise raises
`IndexError`); when it parses, the iteration list is empty and the
`model` accessor raises `IndexError`. -/
theorem report_without_dimension_blocks :
    SISSOOut.fromText minimalReportStr false = .error .indexError ∧
    (SISSOOut.fromText fullReportStr false).toOption.map
        (fun o => (o.iterations, SISSOOut.modelE o)) =
      some ([], .error .indexError) := by
  exact ⟨rfl, rfl⟩

/-- C6: parsing fails with `ValueError` when the completion sentinel is
absent and the override flag is not supplied; with the flag, and
whenever the sentinel is present, parsing proceeds to the report
body. -/
theorem fromText_sentinel_gate (s : String) (b : Bool) :
    (strContains s SENTINEL = false →
      SISSOOut.fromText s false =
        .error (.valueError "SISSO.out should end with the completion sentinel")) ∧
    SISSOOut.fromText s true = SISSOOut.parseBody s ∧
    (strContains s SENTINEL = true →
      SISSOOut.fromText s b = SISSOOut.parseBody s) := by
  refine ⟨fun h => ?_, ?_, fun h => ?_⟩
  · simp [SISSOOut.fromText, h]
  · simp [SISSOOut.fromText]
  · simp [SISSOOut.fromText, h]

/-- Witness for C6 at concrete reports. -/
theorem fromText_sentinel_gate_witness :
    (strContains "unterminated run\n" SENTINEL = false ∧
      SISSOOut.fromText "unterminated run\n" false =
        .error (.valueError "SISSO.out should end with the completion sentinel")) ∧
    SISSOOut.fromText "unterminated run\n" true =
      SISSOOut.parseBody "unterminated run\n" ∧
    (strContains minimalReportStr SENTINEL = true ∧
      SISSOOut.fromText minimalReportStr false =
        SISSOOut.parseBody minimalReportStr) := by
  refine ⟨⟨by decide, (fromText_sentinel_gate "unterminated run\n" false).1 (by decide)⟩,
    (fromText_sentinel_gate "unterminated run\n" false).2.1,
    ⟨by decide, (fromText_sentinel_gate minimalReportStr false).2.2 (by decide)⟩⟩

/-- C4 counterexample: `"(+)"` consists purely of operator/delimiter
tokens, yet decoding succeeds and produces an empty feature list — no
at-least-one-feature check exists. -/
theorem decode_no_feature_accepted :
    decodeFunction "(+)" = .ok ⟨['(', '+', ')'], [], []⟩ := rfl

/-- C7 counterexample: the empty notation string (whose marker string
vacuously fails the begin/end requirement) raises `IndexError` from
`replaced_string[0]`, not the `ValueError` decode error. -/
theorem decode_empty_raises_indexError :
    decodeFunction "" = .error .indexError ∧
    PyErr.indexError ≠ PyErr.valueError "should start and end with the marker" := by
  exact ⟨rfl, by decide⟩

/-- C3 counterexample: an iteration block whose
`Size of the SIS-selected subspace` pattern matches two lines parses
successfully, taking the size from the first match — multiple matches
are not a parse error. -/
theorem iteration_two_matches_parse_ok :
    (findallLine "Size of the SIS-selected subspace" itBlockStr).length = 2 ∧
    SISSOIteration.fromString itBlockStr =
      .ok ⟨1, itBlockModel, [], 10, mkRat 3 2⟩ ∧
    (mkRat 3 2 : ℚ) = 3 / 2 := by
  refine ⟨rfl, by decide, by norm_num [Rat.mkRat_eq_div]⟩

/-! ### Marker-replacement length preservation -/

/-- Replacement with an equal-length pattern preserves length. -/
theorem pyReplaceAux_length (old new : List Char) (hlen : new.length = old.length) :
    ∀ fuel s, (pyReplaceAux old new fuel s).length = s.length := by
  intro fuel
  induction fuel with
  | zero => intro s; cases s <;> rfl
  | succ n ih =>
    intro s
    cases s with
    | nil => rfl
    | cons c rest =>
      by_cases h : old ≠ [] ∧ old.isPrefixOf (c :: rest)
      · have hpre : old <+: c :: rest := by
          exact (List.isPrefixOf_iff_prefix).mp h.2
        have hle : old.length ≤ (c :: rest).length := hpre.length_le
        simp only [pyReplaceAux, if_pos h, List.length_append, ih,
          List.length_drop, List.length_cons] at *
        omega
      · simp only [pyReplaceAux, if_neg h, List.length_cons, ih]

/-- `pyReplaceL` with an equal-length pattern preserves length. -/
theorem pyReplaceL_length (old new : List Char) (hlen : new.length = old.length)
    (s : List Char) : (pyReplaceL old new s).length = s.length :=
  pyReplaceAux_length old new hlen s.length s

/-- The marker-replacement fold preserves length. -/
theorem maskOps_length (s : List Char) : (maskOps s).length = s.length := by
  suffices h : ∀ (ops : List String) (t : List Char),
      ((ops.foldl (fun acc op =>
        pyReplaceL op.data (List.replicate op.data.length '#') acc) t)).length
        = t.length by
    exact h OPERATORS_REPLACEMENT s
  intro ops
  induction ops with
  | nil => intro t; rfl
  | cons o os ih =>
    intro t
    rw [List.foldl_cons, ih, pyReplaceL_length]
    exact List.length_replicate _ _

/-- C7 (amended): for every non-empty notation string whose marker
string does not both begin and end with the marker, decoding fails with
the `ValueError` decode error; only the empty string instead raises
`IndexError` (see the counterexample). -/
theorem decode_bad_boundary_valueError (s : String) (hne : s.data ≠ [])
    (hb : (maskOps s.data).head? ≠ some '#' ∨
      (maskOps s.data).getLast? ≠ some '#') :
    decodeFunction s = .error (.valueError "should start and end with the marker") := by
  have hlen : (maskOps s.data).length = s.data.length := maskOps_length _
  have hmne : maskOps s.data ≠ [] := by
    intro h
    rw [h] at hlen
    exact hne (List.length_eq_zero.mp hlen.symm)
  obtain ⟨c, cs, hcs⟩ := List.exists_cons_of_ne_nil hmne
  have hcond : c ≠ '#' ∨ (c :: cs).getLast? ≠ some '#' := by
    rcases hb with h | h
    · left
      intro e
      rw [hcs, e] at h
      exact h rfl
    · right
      rw [hcs] at h
      exact h
  unfold decodeFunction
  rw [hcs]
  simp [hcond]

/-- Witness for C7 (amended) at the bare notation `f1+f2`. -/
theorem decode_bad_boundary_valueError_witness :
    ("f1+f2" : String).data ≠ [] ∧
    (maskOps ("f1+f2" : String).data).head? ≠ some '#' ∧
    decodeFunction "f1+f2" =
      .error (.valueError "should start and end with the marker") := by
  refine ⟨by decide, by decide,
    decode_bad_boundary_valueError "f1+f2" (by decide) (Or.inl (by decide))⟩

/-- Scanning an all-marker string finds no features. -/
theorem scanFeatsAux_all_hash :
    ∀ (l : List Char) (i : ℕ), (∀ c ∈ l, c = '#') → scanFeatsAux l i none = [] := by
  intro l
  induction l with
  | nil => intro i _; rfl
  | cons c rest ih =>
    intro i h
    have hc : c = '#' := h c (by simp)
    simp only [scanFeatsAux, hc, ne_eq, not_true_eq_false, if_neg, ite_false]
    exact ih (i + 1) (fun d hd => h d (by simp [hd]))

/-- C4 (amended): decoding a non-empty notation whose characters are
entirely consumed by operator/delimiter tokens succeeds — producing a
descriptor with an empty feature list — rather than being rejected; no
at-least-one-feature check exists. -/
theorem decode_all_markers_ok (s : String) (hne : s.data ≠ [])
    (hall : ∀ c ∈ maskOps s.data, c = '#') :
    decodeFunction s = .ok ⟨numpyReplaces s.data, [], []⟩ := by
  have hlen : (maskOps s.data).length = s.data.length := maskOps_length _
  have hmne : maskOps s.data ≠ [] := by
    intro h
    rw [h] at hlen
    exact hne (List.length_eq_zero.mp hlen.symm)
  obtain ⟨c, cs, hcs⟩ := List.exists_cons_of_ne_nil hmne
  have hc : c = '#' := hall c (by rw [hcs]; simp)
  subst hc
  have hl : ('#' :: cs).getLast? = some '#' := by
    rw [← hcs]
    rw [List.getLast?_eq_getLast _ hmne]
    exact congrArg some (hall _ (List.getLast_mem _))
  have hscan : scanFeatsAux ('#' :: cs) 0 none = [] := by
    rw [← hcs]
    exact scanFeatsAux_all_hash _ 0 hall
  unfold decodeFunction
  rw [hcs]
  simp [hl, hscan, rebuildAux, distinctNames]

/-- Witness for C4 (amended) at the notation `(+)`. -/
theorem decode_all_markers_ok_witness :
    ("(+)" : String).data ≠ [] ∧
    (∀ c ∈ maskOps ("(+)" : String).data, c = '#') ∧
    decodeFunction "(+)" = .ok ⟨numpyReplaces ("(+)" : String).data, [], []⟩ := by
  refine ⟨by decide, by decide, decode_all_markers_ok "(+)" (by decide) (by decide)⟩

/-! ### Iteration cardinality (C3) -/

/-- Bind on a successful `Except`. -/
theorem except_bind_ok {α β : Type} (x : α) (f : α → Except PyErr β) :
    (Except.ok x >>= f) = f x := rfl

/-- Bind on a failed `Except`. -/
theorem except_bind_err {α β : Type} (e : PyErr) (f : α → Except PyErr β) :
    ((Except.error e : Except PyErr α) >>= f) = .error e := rfl

/-- C3 (amended): iteration parsing needs at least one line matching
each of the subspace-size and DI-time patterns — zero matches for
either fails the parse — but it does not require exactly one: the
values are taken from the first matching line (its last whitespace
token), and additional matching lines are ignored. -/
theorem iteration_match_cardinality (s : String) :
    ((findallLine "Size of the SIS-selected subspace" s = [] ∨
        findallLine "Time (second) used for this DI:" s = []) →
      exceptIsOk (SISSOIteration.fromString s) = false) ∧
    (∀ (m : SISSOModel) (fsp : List (String × ℤ)) (h₁ h₂ t₁ t₂ : String)
        (r₁ r₂ : List String) (sz : ℤ) (cp : ℚ),
      SISSOModel.fromString s = .ok m →
      exceptMapM featureSpaceEntry
        (findallLine "Total number of features in the space phi" s) = .ok fsp →
      findallLine "Size of the SIS-selected subspace" s = h₁ :: r₁ →
      pyLastTokenE h₁ = .ok t₁ → pyInt t₁ = .ok sz →
      findallLine "Time (second) used for this DI:" s = h₂ :: r₂ →
      pyLastTokenE h₂ = .ok t₂ → pyFloat t₂ = .ok cp →
      SISSOIteration.fromString s = .ok ⟨m.dimension, m, fsp, sz, cp⟩) := by
  constructor
  · intro hor
    unfold SISSOIteration.fromString
    cases hmod : SISSOModel.fromString s with
    | error e => simp [hmod, except_bind_err, exceptIsOk]
    | ok m =>
      cases hfs : exceptMapM featureSpaceEntry
          (findallLine "Total number of features in the space phi" s) with
      | error e => simp [hmod, hfs, except_bind_ok, except_bind_err, exceptIsOk]
      | ok fsp =>
        rcases hor with h | h
        · simp [hmod, hfs, h, except_bind_ok, except_bind_err, listGetE, exceptIsOk]
        · cases hg : listGetE (findallLine "Size of the SIS-selected subspace" s) 0 with
          | error e =>
            simp [hmod, hfs, hg, except_bind_ok, except_bind_err, exceptIsOk]
          | ok h₁ =>
            cases hlt : pyLastTokenE h₁ with
            | error e =>
              simp [hmod, hfs, hg, hlt, except_bind_ok, except_bind_err, exceptIsOk]
            | ok t₁ =>
              cases hint : pyInt t₁ with
              | error e =>
                simp [hmod, hfs, hg, hlt, hint, except_bind_ok, except_bind_err,
                  exceptIsOk]
              | ok sz =>
                have h2 : listGetE (findallLine "Time (second) used for this DI:" s) 0
                    = Except.error PyErr.indexError := by rw [h]; rfl
                simp [hmod, hfs, hg, hlt, hint, h2, except_bind_ok, except_bind_err,
                  exceptIsOk]
  · intro m fsp h₁ h₂ t₁ t₂ r₁ r₂ sz cp hm hf hs ht₁ hsz hc ht₂ hcp
    unfold SISSOIteration.fromString
    simp [hm, hf, hs, hc, ht₁, ht₂, hsz, hcp, except_bind_ok, listGetE]

/-- Witness for C3 (amended): the zero-match failure at a trivial block
and the first-match success at the two-match block. -/
theorem iteration_match_cardinality_witness :
    exceptIsOk (SISSOIteration.fromString "no matches here\n") = false ∧
    SISSOIteration.fromString itBlockStr =
      .ok ⟨itBlockModel.dimension, itBlockModel, [], 10, mkRat 3 2⟩ := by
  constructor
  · exact (iteration_match_cardinality "no matches here\n").1 (Or.inl (by decide))
  · exact (iteration_match_cardinality itBlockStr).2 itBlockModel []
      "Size of the SIS-selected subspace : 10\n"
      "Time (second) used for this DI:  1.5\n" "10" "1.5"
      ["Size of the SIS-selected subspace : 20\n"] [] 10 (mkRat 3 2)
      (by decide) (by decide) (by decide) (by decide) (by decide)
      (by decide) (by decide) (by decide)

/-! ### Prediction formula (C5) -/

/-- Successful list indexing yields the default-free element. -/
theorem get?_eq_some_lget {α : Type} (d : α) :
    ∀ (l : List α) (n : ℕ), n < l.length → l.get? n = some (lget d l n)
  | [], n, h => absurd h (by simp)
  | x :: xs, 0, _ => rfl
  | x :: xs, n + 1, h => by
    have hx := get?_eq_some_lget d xs n (by simpa using h)
    simpa [lget] using hx

/-- `lget` after `set` at the written index. -/
theorem lget_set_self (row : List ℚ) (k : ℕ) (v : ℚ) (h : k < row.length) :
    lget 0 (row.set k v) k = v := by
  induction row generalizing k with
  | nil => simp at h
  | cons x xs ih =>
    cases k with
    | zero => rfl
    | succ m =>
      simp only [List.length_cons] at h
      simpa [List.set, lget] using ih m (by omega)

/-- `lget` after `set` at another index. -/
theorem lget_set_ne (row : List ℚ) (k t : ℕ) (v : ℚ) (h : t ≠ k) :
    lget 0 (row.set k v) t = lget 0 row t := by
  induction row generalizing k t with
  | nil => simp [List.set]
  | cons x xs ih =>
    cases k with
    | zero =>
      cases t with
      | zero => exact absurd rfl h
      | succ m => simp [List.set, lget]
    | succ n =>
      cases t with
      | zero => simp [List.set, lget]
      | succ m => simpa [List.set, lget] using ih n m (by omega)

/-- Row access in the column-update step. -/
theorem dfColumnAdd_lget (k : ℕ) (c : ℚ) (d : (String → ℚ) → ℚ)
    (df : List (String → ℚ)) (out : List (List ℚ)) (i : ℕ)
    (h1 : i < out.length) (h2 : i < df.length) :
    lget [] (dfColumnAdd k c d df out) i =
      (lget [] out i).set k
        (lget 0 (lget [] out i) k + c * d (lget (fun _ => 0) df i)) := by
  induction out generalizing df i with
  | nil => simp at h1
  | cons row out' ih =>
    cases df with
    | nil => simp at h2
    | cons env df' =>
      cases i with
      | zero => rfl
      | succ m =>
        simp only [List.length_cons] at h1 h2
        simpa [dfColumnAdd, lget] using ih df' m (by omega) (by omega)

/-- Length of the column-update step. -/
theorem dfColumnAdd_length (k : ℕ) (c : ℚ) (d : (String → ℚ) → ℚ)
    (df : List (String → ℚ)) (out : List (List ℚ)) :
    (dfColumnAdd k c d df out).length = min out.length df.length := by
  simp [dfColumnAdd]

/-- Invariant specification of the inner task loop of `predict`. -/
theorem predictInner_spec (df : List (String → ℚ)) (nTasks idescr : ℕ)
    (descr : (String → ℚ) → ℚ) :
    ∀ (cs : List (List ℚ)) (s : ℕ) (out : List (List ℚ)),
      out.length = df.length →
      (∀ i, i < out.length → (lget [] out i).length = nTasks) →
      s + cs.length ≤ nTasks →
      (∀ row ∈ cs, idescr < row.length) →
      ∃ out2,
        predictInner df nTasks idescr descr out (List.enumFrom s cs) = .ok out2 ∧
        out2.length = df.length ∧
        (∀ i, i < out2.length → (lget [] out2 i).length = nTasks) ∧
        (∀ i t, i < df.length → t < nTasks →
          mget out2 i t = mget out i t +
            (if s ≤ t ∧ t < s + cs.length then
              lget 0 (lget [] cs (t - s)) idescr * descr (lget (fun _ => 0) df i)
            else 0)) := by
  intro cs
  induction cs with
  | nil =>
    intro s out hlen hrows _ _
    refine ⟨out, rfl, hlen, hrows, fun i t _ _ => ?_⟩
    simp
  | cons row cs ih =>
    intro s out hlen hrows hbound hidx
    have hidx0 : idescr < row.length := hidx row (by simp)
    have hget : row.get? idescr = some (lget 0 row idescr) :=
      get?_eq_some_lget 0 row idescr hidx0
    have hs : s < nTasks := by
      simp only [List.length_cons] at hbound
      omega
    set c := lget 0 row idescr with hc
    set out1 := dfColumnAdd s c descr df out with hout1
    have hlen1 : out1.length = df.length := by
      rw [hout1, dfColumnAdd_length, hlen]
      omega
    have hrows1 : ∀ i, i < out1.length → (lget [] out1 i).length = nTasks := by
      intro i hi
      rw [hlen1] at hi
      rw [hout1, dfColumnAdd_lget _ _ _ _ _ _ (by omega) hi, List.length_set]
      exact hrows i (by omega)
    have hmget1 : ∀ i t, i < df.length → t < nTasks →
        mget out1 i t = mget out i t +
          (if t = s then c * descr (lget (fun _ => 0) df i) else 0) := by
      intro i t hi ht
      rw [hout1]
      unfold mget
      rw [dfColumnAdd_lget _ _ _ _ _ _ (by omega) hi]
      by_cases hts : t = s
      · subst hts
        rw [lget_set_self _ _ _ (by rw [hrows i (by omega)]; omega)]
        simp
      · rw [lget_set_ne _ _ _ _ hts]
        simp [hts]
    obtain ⟨out2, hrun, hlen2, hrows2, hmget2⟩ :=
      ih (s + 1) out1 hlen1 hrows1
        (by simp only [List.length_cons] at hbound; omega)
        (fun r hr => hidx r (by simp [hr]))
    refine ⟨out2, ?_, hlen2, hrows2, ?_⟩
    · rw [List.enumFrom_cons]
      simp only [predictInner, hget, hs, if_pos]
      exact hrun
    · intro i t hi ht
      rw [hmget2 i t hi ht, hmget1 i t hi ht]
      simp only [List.length_cons]
      by_cases hts : t = s
      · subst hts
        have h1 : ¬(t + 1 ≤ t ∧ t < t + 1 + cs.length) := by omega
        have h2 : t ≤ t ∧ t < t + (cs.length + 1) := by omega
        rw [if_neg h1, if_pos h2, if_pos rfl]
        simp [hc, lget]
      · rw [if_neg hts]
        by_cases hin : s + 1 ≤ t ∧ t < s + 1 + cs.length
        · have h2 : s ≤ t ∧ t < s + (cs.length + 1) := by omega
          rw [if_pos hin, if_pos h2]
          have hsub : t - s = (t - (s + 1)) + 1 := by omega
          rw [hsub]
          simp only [lget]
          ring
        · have h2 : ¬(s ≤ t ∧ t < s + (cs.length + 1)) := by omega
          rw [if_neg hin, if_neg h2]
          ring

/-- Invariant specification of the outer descriptor loop of `predict`. -/
theorem predictOuter_spec (df : List (String → ℚ)) (nTasks : ℕ)
    (coefficients : List (List ℚ)) (hct : coefficients.length = nTasks) :
    ∀ (ds : List ((String → ℚ) → ℚ)) (k : ℕ) (out : List (List ℚ)),
      out.length = df.length →
      (∀ i, i < out.length → (lget [] out i).length = nTasks) →
      (∀ row ∈ coefficients, k + ds.length ≤ row.length) →
      ∃ out2,
        predictOuter df nTasks coefficients out (List.enumFrom k ds) = .ok out2 ∧
        out2.length = df.length ∧
        (∀ i, i < out2.length → (lget [] out2 i).length = nTasks) ∧
        (∀ i t, i < df.length → t < nTasks →
          mget out2 i t = mget out i t +
            ∑ j ∈ Finset.range ds.length,
              lget 0 (lget [] coefficients t) (k + j) *
                (lget (fun _ => 0) ds j) (lget (fun _ => 0) df i)) := by
  intro ds
  induction ds with
  | nil =>
    intro k out hlen hrows _
    refine ⟨out, rfl, hlen, hrows, fun i t _ _ => ?_⟩
    simp
  | cons d ds ih =>
    intro k out hlen hrows hbound
    obtain ⟨out1, hrun1, hlen1, hrows1, hmget1⟩ :=
      predictInner_spec df nTasks k d coefficients 0 out hlen hrows
        (by omega) (fun row hr => by
          have := hbound row hr
          simp only [List.length_cons] at this
          omega)
    obtain ⟨out2, hrun2, hlen2, hrows2, hmget2⟩ :=
      ih (k + 1) out1 hlen1 hrows1 (fun row hr => by
        have := hbound row hr
        simp only [List.length_cons] at this
        omega)
    have hrun1e : predictInner df nTasks k d out coefficients.enum = .ok out1 := by
      rw [show coefficients.enum = List.enumFrom 0 coefficients from rfl]
      exact hrun1
    refine ⟨out2, ?_, hlen2, hrows2, ?_⟩
    · rw [List.enumFrom_cons]
      simp only [predictOuter, hrun1e, except_bind_ok]
      exact hrun2
    · intro i t hi ht
      rw [hmget2 i t hi ht, hmget1 i t hi ht]
      rw [if_pos (by omega)]
      simp only [Nat.sub_zero, List.length_cons]
      rw [Finset.sum_range_succ']
      have hshift : ∀ j, lget 0 (lget [] coefficients t) (k + (j + 1)) *
          (lget (fun _ => 0) (d :: ds) (j + 1)) (lget (fun _ => 0) df i) =
          lget 0 (lget [] coefficients t) (k + 1 + j) *
            (lget (fun _ => 0) ds j) (lget (fun _ => 0) df i) := by
        intro j
        simp only [lget]
        congr 2
        omega
      rw [Finset.sum_congr rfl (fun j _ => hshift j)]
      simp only [Nat.add_zero, lget]
      ring

/-- C5: `predict` returns a `[n_rows][n_tasks]` matrix whose entry for
row `i` and task `t` is the task intercept plus the sum over
descriptors of `coefficient[t][d] * (descriptor d at row i)`, whenever
the coefficient matrix has one row per task and each row has one
coefficient per descriptor. -/
theorem predict_rows_tasks (intercept : List ℚ) (coefficients : List (List ℚ))
    (descriptors : List ((String → ℚ) → ℚ)) (df : List (String → ℚ))
    (hct : coefficients.length = intercept.length)
    (hrow : ∀ row ∈ coefficients, descriptors.length ≤ row.length) :
    ∃ M, predictCore intercept coefficients descriptors df = .ok M ∧
      M.length = df.length ∧
      (∀ i, i < df.length → (lget [] M i).length = intercept.length) ∧
      (∀ i t, i < df.length → t < intercept.length →
        mget M i t = lget 0 intercept t +
          ∑ j ∈ Finset.range descriptors.length,
            lget 0 (lget [] coefficients t) j *
              (lget (fun _ => 0) descriptors j) (lget (fun _ => 0) df i)) := by
  have hinit_getD : ∀ i, i < df.length →
      lget [] (df.map (fun _ => intercept)) i = intercept := by
    intro i hi
    induction df generalizing i with
    | nil => simp at hi
    | cons env df' ih =>
      cases i with
      | zero => rfl
      | succ m =>
        simp only [List.length_cons] at hi
        simpa [lget] using ih m (by omega)
  obtain ⟨M, hrun, hlen, hrows, hmget⟩ :=
    predictOuter_spec df intercept.length coefficients hct descriptors 0
      (df.map (fun _ => intercept)) (by simp)
      (fun i hi => by
        rw [hinit_getD i (by simpa using hi)])
      (fun row hr => by simpa using hrow row hr)
  refine ⟨M, ?_, hlen, fun i hi => hrows i (by omega), ?_⟩
  · unfold predictCore
    rw [show descriptors.enum = List.enumFrom 0 descriptors from rfl]
    exact hrun
  · intro i t hi ht
    rw [hmget i t hi ht]
    have hbase : mget (df.map (fun _ => intercept)) i t = lget 0 intercept t := by
      unfold mget
      rw [hinit_getD i hi]
    rw [hbase]
    simp [Nat.zero_add]

/-- Witness for C5: one row, one task, one descriptor. -/
theorem predict_rows_tasks_witness :
    ∃ M, predictCore [1] [[2]] [fun env => env "x"] [fun _ => (5 : ℚ)] = .ok M ∧
      M.length = 1 ∧ (lget [] M 0).length = 1 ∧ mget M 0 0 = 11 := by
  obtain ⟨M, h1, h2, h3, h4⟩ := predict_rows_tasks [1] [[2]] [fun env => env "x"]
    [fun _ => (5 : ℚ)] rfl (by simp)
  refine ⟨M, h1, by simpa using h2, by simpa using h3 0 (by simp), ?_⟩
  rw [h4 0 0 (by simp) (by simp)]
  norm_num [Finset.sum_range_one, lget]

/-! ### Decoder refinement (C2): token replacement on rendered notations -/

/-- A good rendered notation is non-empty. -/
theorem render_ne_nil {e : NotExpr} (hg : e.good = true) : e.render ≠ [] := by
  cases e with
  | feat n =>
    simp only [NotExpr.good, goodName, Bool.and_eq_true, decide_eq_true_eq] at hg
    exact hg.1
  | bin o a b => simp [NotExpr.render]

/-- The column-lookup rendering of a good notation is non-empty. -/
theorem pyRender_ne_nil {e : NotExpr} : e.pyRender ≠ [] := by
  cases e with
  | feat n => simp [NotExpr.pyRender, dfWrap, dfOpen]
  | bin o a b => simp [NotExpr.pyRender]

end PySisso
